import Mathlib

/-!
Shallow embedding of `solve_scheduling` and the `/api/schedule` handler from
`Backend/api.py` (ExamOptim).

The Python function builds a CP-SAT model over integer decision variables
(`exam_start`, `exam_day`, `exam_slot`, `exam_room`, `exam_end`, `start_min`,
`end_max`, `period`) and reified booleans for each pair of exams, hands it to
the external solver, and maps a solved valuation back to JSON.  Here the model
is embedded as a decidable feasibility predicate `Feasible` on explicit
valuations: a valuation satisfies `Feasible` exactly when it satisfies every
constraint the Python code posts.  The solver itself is an external black box;
per the documented adapter contract it returns a status, and the code accepts
OPTIMAL/FEASIBLE (reading back a satisfying valuation) while every other
status takes the generic-failure branch.  `IsSolveOutput` captures the
possible return values of `solve_scheduling` under that contract.

All Python integers are modelled as `Int` (arbitrary precision, possibly
negative).  CP-SAT's `AddDivisionEquality` / `AddModuloEquality` round toward
zero, hence `Int.tdiv` / `Int.tmod`; the variable domains force the operands
nonnegative wherever these constraints are posted, so the choice of rounding
convention is not observable.
-/

namespace ExamOptim

/-- An exam record, after the dictionary lookups of `api.py` (`exam.get("duration", 1)`,
`exam.get("students", 0)`, `exam.get("promotion")`, `exam.get("name")`,
`exam.get("filiere")`).  Absent keys with no default become `none`. -/
structure Exam where
  name : Option String
  duration : Int
  students : Int
  promotion : Option Int
  filiere : Option String
  deriving DecidableEq, Repr

/-- A room record: `room["name"]` and `room.get("capacity", 0)`. -/
structure Room where
  name : String
  capacity : Int
  deriving DecidableEq, Repr

/-- The request payload of one solve: `data.get("days", 3)`,
`data.get("slots_per_day", 10)`, `data.get("margin", 1)`, `data.get("exams", [])`,
`data.get("rooms", [])`, with defaults already applied. -/
structure Input where
  days : Int
  slots_per_day : Int
  margin : Int
  exams : List Exam
  rooms : List Room
  deriving DecidableEq, Repr

/-- The solved values of one exam's four decision variables
(`exam_start[e]`, `exam_day[e]`, `exam_slot[e]`, `exam_room[e]`). -/
structure ExamVals where
  start : Int
  day : Int
  slot : Int
  room : Int
  deriving DecidableEq, Repr

/-- The solved values of the five reified booleans created for the pair (i, j)
in the same-room/same-day non-overlap loop (lines 78-99 of `api.py`). -/
structure PairVals where
  same_room : Bool
  same_day : Bool
  both : Bool
  i_before_j : Bool
  j_before_i : Bool
  deriving DecidableEq, Repr

/-- The solved values of the three reified booleans created for the pair (i, j)
in the promotion-separation loop (lines 102-117 of `api.py`). -/
structure PromoVals where
  same_day_promo : Bool
  i_before_j : Bool
  j_before_i : Bool
  deriving DecidableEq, Repr

/-- A complete valuation of the model's variables.  `pair` and `promo` are
total over pair indices; `Feasible` only constrains them at i < j < number
of exams, matching the loops in the source. -/
structure Valuation where
  exam : List ExamVals
  exam_end : List Int
  start_min : Int
  end_max : Int
  period : Int
  pair : Nat → Nat → PairVals
  promo : Nat → Nat → PromoVals

/-- Default exam used by `List.getD`; never reached under the length and index
hypotheses of the theorems below. -/
def dExam : Exam := { name := none, duration := 1, students := 0, promotion := none, filiere := none }

/-- Default room used by `List.getD`; never reached at in-range indices. -/
def dRoom : Room := { name := "", capacity := 0 }

/-- Default exam valuation used by `List.getD`. -/
def dVals : ExamVals := { start := 0, day := 0, slot := 0, room := 0 }

/-- Line 74: `possible_rooms = [r for r, room in enumerate(rooms) if room.get("capacity", 0) >= students]`. -/
def possible_rooms (rooms : List Room) (students : Int) : List Nat :=
  (List.range rooms.length).filter (fun r => students ≤ (rooms.getD r dRoom).capacity)

/-- Lines 60-75: the per-exam constraints of the model — the domain of
`exam_start` (`NewIntVar(0, D*H - duration)`), the domains of `exam_day` and
`exam_slot`, `AddDivisionEquality`, `AddModuloEquality`,
`exam_slot + duration <= H`, and the room domain `Domain.FromValues(possible_rooms)`. -/
abbrev examOk (input : Input) (ex : Exam) (x : ExamVals) : Prop :=
  0 ≤ x.start ∧ x.start ≤ input.days * input.slots_per_day - ex.duration ∧
  0 ≤ x.day ∧ x.day ≤ input.days - 1 ∧
  0 ≤ x.slot ∧ x.slot ≤ input.slots_per_day - 1 ∧
  x.day = x.start.tdiv input.slots_per_day ∧
  x.slot = x.start.tmod input.slots_per_day ∧
  x.slot + ex.duration ≤ input.slots_per_day ∧
  x.room ∈ (possible_rooms input.rooms ex.students).map Int.ofNat

/-- Lines 120-125: the `exam_end` variable of one exam —
`NewIntVar(0, D*H)` and `exam_end_var == exam_start + duration`. -/
abbrev endOk (input : Input) (ex : Exam) (x : ExamVals) (ev : Int) : Prop :=
  0 ≤ ev ∧ ev ≤ input.days * input.slots_per_day ∧ ev = x.start + ex.duration

/-- Lines 78-99: the constraints posted for one pair (i, j) in the
same-room/same-day loop.  Each reified implication
(`.OnlyEnforceIf(b)` / `.OnlyEnforceIf(b.Not())`) becomes an implication from
the boolean's value. -/
abbrev pairOk (margin : Int) (exi exj : Exam) (xi xj : ExamVals) (p : PairVals) : Prop :=
  (p.same_room = true → xi.room = xj.room) ∧
  (p.same_room = false → xi.room ≠ xj.room) ∧
  (p.same_day = true → xi.day = xj.day) ∧
  (p.same_day = false → xi.day ≠ xj.day) ∧
  (p.both = true → p.same_room = true ∧ p.same_day = true) ∧
  (p.both = false → p.same_room = false ∨ p.same_day = false) ∧
  (p.i_before_j = true → xi.slot + exi.duration + margin ≤ xj.slot) ∧
  (p.j_before_i = true → xj.slot + exj.duration + margin ≤ xi.slot) ∧
  (p.both = true → p.i_before_j = true ∨ p.j_before_i = true)

/-- Line 106: the guard `promo_i is not None and promo_j is not None and promo_i != promo_j`. -/
def promoActive (exi exj : Exam) : Bool :=
  match exi.promotion, exj.promotion with
  | some a, some b => a != b
  | _, _ => false

/-- Lines 102-117: the constraints posted for one pair (i, j) in the
promotion loop.  They are only created when the guard of line 106 holds. -/
abbrev promoOk (exi exj : Exam) (xi xj : ExamVals) (q : PromoVals) : Prop :=
  promoActive exi exj = true →
    (q.same_day_promo = true → xi.day = xj.day) ∧
    (q.same_day_promo = false → xi.day ≠ xj.day) ∧
    (q.i_before_j = true → xi.slot + exi.duration ≤ xj.slot) ∧
    (q.j_before_i = true → xj.slot + exj.duration ≤ xi.slot) ∧
    (q.same_day_promo = true → q.i_before_j = true ∨ q.j_before_i = true)

/-- CP-SAT `AddMinEquality(m, l)`: m is an element of l and a lower bound of l.
With `l = []` no value satisfies this, matching the engine's rejection of a
min/max constraint with no operands (no valuation is ever read back). -/
abbrev IsMinOf (m : Int) (l : List Int) : Prop := m ∈ l ∧ ∀ x ∈ l, m ≤ x

/-- CP-SAT `AddMaxEquality(m, l)`: m is an element of l and an upper bound of l. -/
abbrev IsMaxOf (m : Int) (l : List Int) : Prop := m ∈ l ∧ ∀ x ∈ l, x ≤ m

/-- Lines 127-133: domains of `start_min`, `end_max`, `period`, the min/max
channeling constraints, and `period == end_max - start_min`. -/
abbrev objectiveOk (input : Input) (v : Valuation) : Prop :=
  0 ≤ v.start_min ∧ v.start_min ≤ input.days * input.slots_per_day ∧
  0 ≤ v.end_max ∧ v.end_max ≤ input.days * input.slots_per_day ∧
  0 ≤ v.period ∧ v.period ≤ input.days * input.slots_per_day ∧
  IsMinOf v.start_min (v.exam.map ExamVals.start) ∧
  IsMaxOf v.end_max v.exam_end ∧
  v.period = v.end_max - v.start_min

/-- A valuation satisfies every constraint of the model built by
`solve_scheduling` for `input`.  The pair loops run over `i < j < num_exams`
exactly as `for i in range(n): for j in range(i+1, n)`. -/
abbrev Feasible (input : Input) (v : Valuation) : Prop :=
  v.exam.length = input.exams.length ∧
  v.exam_end.length = input.exams.length ∧
  (∀ e, e < input.exams.length →
    examOk input (input.exams.getD e dExam) (v.exam.getD e dVals)) ∧
  (∀ e, e < input.exams.length →
    endOk input (input.exams.getD e dExam) (v.exam.getD e dVals) (v.exam_end.getD e 0)) ∧
  (∀ i, i < input.exams.length → ∀ j, j < input.exams.length → i < j →
    pairOk input.margin (input.exams.getD i dExam) (input.exams.getD j dExam)
      (v.exam.getD i dVals) (v.exam.getD j dVals) (v.pair i j)) ∧
  (∀ i, i < input.exams.length → ∀ j, j < input.exams.length → i < j →
    promoOk (input.exams.getD i dExam) (input.exams.getD j dExam)
      (v.exam.getD i dVals) (v.exam.getD j dVals) (v.promo i j)) ∧
  objectiveOk input v

instance decExamOk (input : Input) (ex : Exam) (x : ExamVals) : Decidable (examOk input ex x) :=
inferInstance

instance decEndOk (input : Input) (ex : Exam) (x : ExamVals) (ev : Int) : Decidable (endOk input ex x ev) :=
inferInstance

instance decPairOk (margin : Int) (a b : Exam) (xi xj : ExamVals) (p : PairVals) : Decidable (pairOk margin a b xi xj p) :=
inferInstance

instance decPromoOk (a b : Exam) (xi xj : ExamVals) (q : PromoVals) : Decidable (promoOk a b xi xj q) :=
inferInstance

instance decObjectiveOk (input : Input) (v : Valuation) : Decidable (objectiveOk input v) :=
inferInstance

instance decFeasible (input : Input) (v : Valuation) : Decidable (Feasible input v) :=
inferInstance

/-- One entry of the `results` list (lines 143-150). -/
structure ResultEntry where
  name : Option String
  filiere : Option String
  promotion : Option Int
  day : Int
  slot : Int
  room : String
  deriving DecidableEq, Repr

/-- Default result entry used by `List.getD`. -/
def dEntry : ResultEntry :=
  { name := none, filiere := none, promotion := none, day := 0, slot := 0, room := "" }

/-- The return value of `solve_scheduling`: either the success dictionary
(`results` plus `total_period`) or the failure dictionary with its message. -/
inductive SolveResult where
  | success (results : List ResultEntry) (total_period : Int)
  | failure (message : String)
  deriving DecidableEq, Repr

/-- Line 154: `{"status": "failure", "message": "Aucune solution trouvée"}` —
the only failure value `solve_scheduling` can return. -/
def failureResult : SolveResult := SolveResult.failure "Aucune solution trouvée"

/-- Lines 141-151: the success results list, one entry per input exam, in input
order, reading back the solved `day`, `slot` and the assigned room's name
(`rooms[solver.Value(exam_room[e])]["name"]`; the room value is in range for
every feasible valuation, so `getD`'s default is never reached). -/
def resultsOf (input : Input) (v : Valuation) : List ResultEntry :=
  (List.range input.exams.length).map (fun e =>
    { name := (input.exams.getD e dExam).name
      filiere := (input.exams.getD e dExam).filiere
      promotion := (input.exams.getD e dExam).promotion
      day := (v.exam.getD e dVals).day
      slot := (v.exam.getD e dVals).slot
      room := (input.rooms.getD (v.exam.getD e dVals).room.toNat dRoom).name })

/-- Line 152: the success dictionary built from a solved valuation. -/
def mapResult (input : Input) (v : Valuation) : SolveResult :=
  SolveResult.success (resultsOf input v) v.period

/-- Modelled from the spec: the solver adapter (the external CP-SAT engine,
not part of this repository) returns `OPTIMAL | FEASIBLE | INFEASIBLE |
UNKNOWN`; on OPTIMAL/FEASIBLE its valuation satisfies every posted
constraint.  `solve_scheduling` maps OPTIMAL/FEASIBLE to the success
dictionary read from that valuation and every other status to the generic
failure dictionary.  Hence a return value of `solve_scheduling` is either the
generic failure or `mapResult` of some feasible valuation. -/
def IsSolveOutput (input : Input) (r : SolveResult) : Prop :=
  r = failureResult ∨ ∃ v, Feasible input v ∧ r = mapResult input v

/-- Every possible return value of `solve_scheduling input` is the generic
failure dictionary. -/
def OnlyGenericFailure (input : Input) : Prop :=
  ∀ r, IsSolveOutput input r → r = failureResult

/-- An HTTP response of the `/api/schedule` handler. -/
inductive HttpResponse where
  | ok (body : SolveResult)
  | badRequest (message : String)
  deriving DecidableEq, Repr

/-- Line 163: the message of the 400 response for a missing body. -/
def noDataMessage : String := "Aucune donnée fournie"

/-- Lines 156-166: the `/api/schedule` handler.  A missing (falsy) JSON body
is answered with the 400 error before `solve_scheduling` is called; otherwise
the handler returns whatever `solve_scheduling` returns. -/
def ScheduleOutput (data : Option Input) (r : HttpResponse) : Prop :=
  match data with
  | none => r = HttpResponse.badRequest noDataMessage
  | some d => ∃ s, IsSolveOutput d s ∧ r = HttpResponse.ok s

/-! Concrete inputs and valuations used below to instantiate the theorems. -/

/-- Two same-promotion exams, one room: D = 3, H = 10, margin = 1. -/
def inA : Input :=
  { days := 3, slots_per_day := 10, margin := 1
    exams := [{ name := some "Mathematiques", duration := 2, students := 30,
                promotion := some 1, filiere := some "GL" },
              { name := some "Physique", duration := 2, students := 25,
                promotion := some 1, filiere := some "IA" }]
    rooms := [{ name := "Salle A", capacity := 35 }] }

/-- A feasible valuation for `inA`: both exams in room 0 on day 0, at slots 0
and 3 (margin 1 after a duration-2 exam). -/
def vA : Valuation :=
  { exam := [{ start := 0, day := 0, slot := 0, room := 0 },
             { start := 3, day := 0, slot := 3, room := 0 }]
    exam_end := [2, 5]
    start_min := 0, end_max := 5, period := 5
    pair := fun _ _ => { same_room := true, same_day := true, both := true,
                         i_before_j := true, j_before_i := false }
    promo := fun _ _ => { same_day_promo := true, i_before_j := false, j_before_i := false } }

/-- Two promotion-less exams, two rooms. -/
def inB : Input :=
  { days := 3, slots_per_day := 10, margin := 1
    exams := [{ name := none, duration := 2, students := 10, promotion := none, filiere := none },
              { name := none, duration := 2, students := 10, promotion := none, filiere := none }]
    rooms := [{ name := "Salle A", capacity := 35 }, { name := "Salle B", capacity := 50 }] }

/-- A feasible valuation for `inB` in which both exams run on the same day at
the same slot, in different rooms: no ordering constraint applies. -/
def vB : Valuation :=
  { exam := [{ start := 0, day := 0, slot := 0, room := 0 },
             { start := 0, day := 0, slot := 0, room := 1 }]
    exam_end := [2, 2]
    start_min := 0, end_max := 2, period := 2
    pair := fun _ _ => { same_room := false, same_day := true, both := false,
                         i_before_j := false, j_before_i := false }
    promo := fun _ _ => { same_day_promo := true, i_before_j := false, j_before_i := false } }

/-- A feasible valuation for `inB` in which both exams are in the same room at
the same slot but on different days: no ordering constraint applies. -/
def vB2 : Valuation :=
  { exam := [{ start := 0, day := 0, slot := 0, room := 0 },
             { start := 10, day := 1, slot := 0, room := 0 }]
    exam_end := [2, 12]
    start_min := 0, end_max := 12, period := 12
    pair := fun _ _ => { same_room := true, same_day := false, both := false,
                         i_before_j := false, j_before_i := false }
    promo := fun _ _ => { same_day_promo := true, i_before_j := false, j_before_i := false } }

/-- Same as `inB` but both exams carry the same promotion. -/
def inB3 : Input :=
  { days := 3, slots_per_day := 10, margin := 1
    exams := [{ name := none, duration := 2, students := 10, promotion := some 1, filiere := none },
              { name := none, duration := 2, students := 10, promotion := some 1, filiere := none }]
    rooms := [{ name := "Salle A", capacity := 35 }, { name := "Salle B", capacity := 50 }] }

/-- Two exams of different promotions, two rooms. -/
def inC : Input :=
  { days := 3, slots_per_day := 10, margin := 1
    exams := [{ name := none, duration := 2, students := 10, promotion := some 1, filiere := none },
              { name := none, duration := 2, students := 10, promotion := some 2, filiere := none }]
    rooms := [{ name := "Salle A", capacity := 35 }, { name := "Salle B", capacity := 50 }] }

/-- A feasible valuation for `inC`: different rooms, same day, adjacent slots
(0-1 and 2-3) — promotion separation with margin 0 is satisfied. -/
def vC : Valuation :=
  { exam := [{ start := 0, day := 0, slot := 0, room := 0 },
             { start := 2, day := 0, slot := 2, room := 1 }]
    exam_end := [2, 4]
    start_min := 0, end_max := 4, period := 4
    pair := fun _ _ => { same_room := false, same_day := true, both := false,
                         i_before_j := false, j_before_i := false }
    promo := fun _ _ => { same_day_promo := true, i_before_j := true, j_before_i := false } }

/-- One exam whose duration 5 exceeds `slots_per_day` = 3. -/
def c3in : Input :=
  { days := 1, slots_per_day := 3, margin := 0
    exams := [{ name := none, duration := 5, students := 0, promotion := none, filiere := none }]
    rooms := [{ name := "Salle A", capacity := 35 }] }

/-- One exam with 100 students; the only room holds 35. -/
def c4in : Input :=
  { days := 3, slots_per_day := 10, margin := 1
    exams := [{ name := none, duration := 2, students := 100, promotion := none, filiere := none }]
    rooms := [{ name := "Salle A", capacity := 35 }] }

/-- One exam with the non-positive duration 0. -/
def c9in : Input :=
  { days := 3, slots_per_day := 10, margin := 1
    exams := [{ name := none, duration := 0, students := 0, promotion := none, filiere := none }]
    rooms := [{ name := "Salle A", capacity := 35 }] }

/-- A feasible valuation for `c9in`: the zero-duration exam is scheduled. -/
def v9 : Valuation :=
  { exam := [{ start := 0, day := 0, slot := 0, room := 0 }]
    exam_end := [0]
    start_min := 0, end_max := 0, period := 0
    pair := fun _ _ => { same_room := true, same_day := true, both := true,
                         i_before_j := false, j_before_i := false }
    promo := fun _ _ => { same_day_promo := true, i_before_j := false, j_before_i := false } }

/-- One exam, empty room list. -/
def c9e : Input :=
  { days := 3, slots_per_day := 10, margin := 1
    exams := [{ name := none, duration := 2, students := 10, promotion := none, filiere := none }]
    rooms := [] }

/-- Empty exam list. -/
def c10in : Input :=
  { days := 3, slots_per_day := 10, margin := 1, exams := []
    rooms := [{ name := "Salle A", capacity := 35 }] }

/-- The spec's recomputation of exam start instants from a results list:
`start = day * slots_per_day + slot`. -/
def recomputedStarts (input : Input) (rs : List ResultEntry) : List Int :=
  rs.map (fun r => r.day * input.slots_per_day + r.slot)

/-- The spec's recomputation of exam end instants from a results list and the
input durations (in input order): `end = day * slots_per_day + slot + duration`. -/
def recomputedEnds (input : Input) (rs : List ResultEntry) : List Int :=
  (rs.zip input.exams).map (fun p => p.1.day * input.slots_per_day + p.1.slot + p.2.duration)

/-! Helper lemmas shared by the claim theorems. -/

/-- For i < j, a feasible valuation separates exams sharing room and day by
the margin: unwinding the reified booleans of lines 78-99. -/
lemma pair_sep_lt {input : Input} {v : Valuation} {i j : Nat}
    (hF : Feasible input v) (hi : i < input.exams.length) (hj : j < input.exams.length)
    (hij : i < j)
    (hroom : (v.exam.getD i dVals).room = (v.exam.getD j dVals).room)
    (hday : (v.exam.getD i dVals).day = (v.exam.getD j dVals).day) :
    (v.exam.getD i dVals).slot + (input.exams.getD i dExam).duration + input.margin ≤ (v.exam.getD j dVals).slot ∨
    (v.exam.getD j dVals).slot + (input.exams.getD j dExam).duration + input.margin ≤ (v.exam.getD i dVals).slot := by
  obtain ⟨-, -, -, -, hpair, -, -⟩ := hF
  obtain ⟨h1, h2, h3, h4, h5, h6, h7, h8, h9⟩ := hpair i hi j hj hij
  cases hsr : (v.pair i j).same_room with
  | false => exact absurd hroom (h2 hsr)
  | true =>
    cases hsd : (v.pair i j).same_day with
    | false => exact absurd hday (h4 hsd)
    | true =>
      cases hb : (v.pair i j).both with
      | false =>
        rcases h6 hb with hc | hc
        · rw [hsr] at hc; exact absurd hc (by decide)
        · rw [hsd] at hc; exact absurd hc (by decide)
      | true =>
        rcases h9 hb with hc | hc
        · exact Or.inl (h7 hc)
        · exact Or.inr (h8 hc)

/-- For i < j, a feasible valuation separates exams of distinct defined
promotions on the same day with margin 0: unwinding lines 102-117. -/
lemma promo_sep_lt {input : Input} {v : Valuation} {i j : Nat} {a b : Int}
    (hF : Feasible input v) (hi : i < input.exams.length) (hj : j < input.exams.length)
    (hij : i < j)
    (ha : (input.exams.getD i dExam).promotion = some a)
    (hb : (input.exams.getD j dExam).promotion = some b)
    (hab : a ≠ b)
    (hday : (v.exam.getD i dVals).day = (v.exam.getD j dVals).day) :
    (v.exam.getD i dVals).slot + (input.exams.getD i dExam).duration ≤ (v.exam.getD j dVals).slot ∨
    (v.exam.getD j dVals).slot + (input.exams.getD j dExam).duration ≤ (v.exam.getD i dVals).slot := by
  obtain ⟨-, -, -, -, -, hpromo, -⟩ := hF
  have hact : promoActive (input.exams.getD i dExam) (input.exams.getD j dExam) = true := by
    simp only [promoActive, ha, hb]
    exact bne_iff_ne.mpr hab
  obtain ⟨h1, h2, h3, h4, h5⟩ := hpromo i hi j hj hij hact
  cases hsd : (v.promo i j).same_day_promo with
  | false => exact absurd hday (h2 hsd)
  | true =>
    rcases h5 hsd with hc | hc
    · exact Or.inl (h3 hc)
    · exact Or.inr (h4 hc)

/-- C1: In every success result of solve_scheduling, any two distinct exams
assigned the same room and the same day satisfy
`slot(i) + duration(i) + margin ≤ slot(j)` or
`slot(j) + duration(j) + margin ≤ slot(i)`; and the ordering is genuinely
conditional — a feasible valuation may place two exams at overlapping slots
when their rooms differ (second conjunct) or when their days differ (third
conjunct), with no such ordering. -/
theorem same_room_same_day_margin_separation :
    (∀ (input : Input) (v : Valuation) (i j : Nat),
      Feasible input v → i < input.exams.length → j < input.exams.length → i ≠ j →
      (v.exam.getD i dVals).room = (v.exam.getD j dVals).room →
      (v.exam.getD i dVals).day = (v.exam.getD j dVals).day →
      (v.exam.getD i dVals).slot + (input.exams.getD i dExam).duration + input.margin ≤ (v.exam.getD j dVals).slot ∨
      (v.exam.getD j dVals).slot + (input.exams.getD j dExam).duration + input.margin ≤ (v.exam.getD i dVals).slot) ∧
    (∃ v, Feasible inB v ∧
      (v.exam.getD 0 dVals).room ≠ (v.exam.getD 1 dVals).room ∧
      (v.exam.getD 0 dVals).day = (v.exam.getD 1 dVals).day ∧
      ¬((v.exam.getD 0 dVals).slot + (inB.exams.getD 0 dExam).duration + inB.margin ≤ (v.exam.getD 1 dVals).slot ∨
        (v.exam.getD 1 dVals).slot + (inB.exams.getD 1 dExam).duration + inB.margin ≤ (v.exam.getD 0 dVals).slot)) ∧
    (∃ v, Feasible inB v ∧
      (v.exam.getD 0 dVals).room = (v.exam.getD 1 dVals).room ∧
      (v.exam.getD 0 dVals).day ≠ (v.exam.getD 1 dVals).day ∧
      ¬((v.exam.getD 0 dVals).slot + (inB.exams.getD 0 dExam).duration + inB.margin ≤ (v.exam.getD 1 dVals).slot ∨
        (v.exam.getD 1 dVals).slot + (inB.exams.getD 1 dExam).duration + inB.margin ≤ (v.exam.getD 0 dVals).slot)) := by
  refine ⟨?_, ⟨vB, by decide⟩, ⟨vB2, by decide⟩⟩
  intro input v i j hF hi hj hne hroom hday
  rcases lt_or_gt_of_ne hne with hij | hij
  · exact pair_sep_lt hF hi hj hij hroom hday
  · exact (pair_sep_lt hF hj hi hij hroom.symm hday.symm).symm

/-- Witness for C1: the separation theorem applied to the concrete input
`inA` with the concrete feasible valuation `vA`, at the pair (0, 1). -/
theorem same_room_same_day_margin_separation_w :
    (Feasible inA vA ∧ (0 : Nat) < inA.exams.length ∧ (1 : Nat) < inA.exams.length ∧
      (0 : Nat) ≠ 1 ∧
      (vA.exam.getD 0 dVals).room = (vA.exam.getD 1 dVals).room ∧
      (vA.exam.getD 0 dVals).day = (vA.exam.getD 1 dVals).day) ∧
    ((vA.exam.getD 0 dVals).slot + (inA.exams.getD 0 dExam).duration + inA.margin ≤ (vA.exam.getD 1 dVals).slot ∨
     (vA.exam.getD 1 dVals).slot + (inA.exams.getD 1 dExam).duration + inA.margin ≤ (vA.exam.getD 0 dVals).slot) :=
  ⟨⟨by decide, by decide, by decide, by decide, by decide, by decide⟩,
    same_room_same_day_margin_separation.1 inA vA 0 1 (by decide) (by decide) (by decide)
      (by decide) (by decide) (by decide)⟩

/-- C2: In every success result, two exams with defined and different
promotions placed on the same day have disjoint slot intervals
(`slot(i) + duration(i) ≤ slot(j)` or `slot(j) + duration(j) ≤ slot(i)`, no
margin, regardless of room); and the constraint really exempts the other
pairs — a feasible valuation may overlap two exams on the same day when both
promotions are null (second conjunct) or when they are equal (third
conjunct). -/
theorem distinct_cohorts_same_day_disjoint :
    (∀ (input : Input) (v : Valuation) (i j : Nat) (a b : Int),
      Feasible input v → i < input.exams.length → j < input.exams.length → i ≠ j →
      (input.exams.getD i dExam).promotion = some a →
      (input.exams.getD j dExam).promotion = some b → a ≠ b →
      (v.exam.getD i dVals).day = (v.exam.getD j dVals).day →
      (v.exam.getD i dVals).slot + (input.exams.getD i dExam).duration ≤ (v.exam.getD j dVals).slot ∨
      (v.exam.getD j dVals).slot + (input.exams.getD j dExam).duration ≤ (v.exam.getD i dVals).slot) ∧
    (∃ v, Feasible inB v ∧
      (inB.exams.getD 0 dExam).promotion = none ∧ (inB.exams.getD 1 dExam).promotion = none ∧
      (v.exam.getD 0 dVals).day = (v.exam.getD 1 dVals).day ∧
      ¬((v.exam.getD 0 dVals).slot + (inB.exams.getD 0 dExam).duration ≤ (v.exam.getD 1 dVals).slot ∨
        (v.exam.getD 1 dVals).slot + (inB.exams.getD 1 dExam).duration ≤ (v.exam.getD 0 dVals).slot)) ∧
    (∃ v, Feasible inB3 v ∧
      (inB3.exams.getD 0 dExam).promotion = some 1 ∧ (inB3.exams.getD 1 dExam).promotion = some 1 ∧
      (v.exam.getD 0 dVals).day = (v.exam.getD 1 dVals).day ∧
      ¬((v.exam.getD 0 dVals).slot + (inB3.exams.getD 0 dExam).duration ≤ (v.exam.getD 1 dVals).slot ∨
        (v.exam.getD 1 dVals).slot + (inB3.exams.getD 1 dExam).duration ≤ (v.exam.getD 0 dVals).slot)) := by
  refine ⟨?_, ⟨vB, by decide⟩, ⟨vB, by decide⟩⟩
  intro input v i j a b hF hi hj hne ha hb hab hday
  rcases lt_or_gt_of_ne hne with hij | hij
  · exact promo_sep_lt hF hi hj hij ha hb hab hday
  · exact (promo_sep_lt hF hj hi hij hb ha (Ne.symm hab) hday.symm).symm

/-- Witness for C2: the cohort-separation theorem applied to the concrete
input `inC` (promotions 1 and 2) with the concrete feasible valuation `vC`,
at the pair (0, 1) — here the two exams are adjacent (slots 0-1 and 2-3),
showing margin 0 is accepted. -/
theorem distinct_cohorts_same_day_disjoint_w :
    (Feasible inC vC ∧ (0 : Nat) < inC.exams.length ∧ (1 : Nat) < inC.exams.length ∧
      (0 : Nat) ≠ 1 ∧
      (inC.exams.getD 0 dExam).promotion = some 1 ∧
      (inC.exams.getD 1 dExam).promotion = some 2 ∧ (1 : Int) ≠ 2 ∧
      (vC.exam.getD 0 dVals).day = (vC.exam.getD 1 dVals).day) ∧
    ((vC.exam.getD 0 dVals).slot + (inC.exams.getD 0 dExam).duration ≤ (vC.exam.getD 1 dVals).slot ∨
     (vC.exam.getD 1 dVals).slot + (inC.exams.getD 1 dExam).duration ≤ (vC.exam.getD 0 dVals).slot) :=
  ⟨⟨by decide, by decide, by decide, by decide, by decide, by decide, by decide, by decide⟩,
    distinct_cohorts_same_day_disjoint.1 inC vC 0 1 1 2 (by decide) (by decide) (by decide)
      (by decide) (by decide) (by decide) (by decide) (by decide)⟩

/-- C5: In every success result, every exam's assigned room index denotes an
existing room whose capacity is at least the exam's student count (the room
variable's domain is `possible_rooms`, line 74-75). -/
theorem assigned_room_has_capacity :
    ∀ (input : Input) (v : Valuation) (e : Nat),
      Feasible input v → e < input.exams.length →
      ∃ r : Nat, r < input.rooms.length ∧
        (v.exam.getD e dVals).room = (r : Int) ∧
        (input.exams.getD e dExam).students ≤ (input.rooms.getD r dRoom).capacity := by
  intro input v e hF he
  obtain ⟨-, -, hex, -, -, -, -⟩ := hF
  obtain ⟨-, -, -, -, -, -, -, -, -, hmem⟩ := hex e he
  obtain ⟨r, hr, hreq⟩ := List.mem_map.mp hmem
  unfold possible_rooms at hr
  obtain ⟨hrange, hcap⟩ := List.mem_filter.mp hr
  exact ⟨r, List.mem_range.mp hrange, hreq.symm, of_decide_eq_true hcap⟩

/-- Witness for C5: the capacity theorem applied to `inA` and `vA` at exam 0. -/
theorem assigned_room_has_capacity_w :
    (Feasible inA vA ∧ (0 : Nat) < inA.exams.length) ∧
    ∃ r : Nat, r < inA.rooms.length ∧
      (vA.exam.getD 0 dVals).room = (r : Int) ∧
      (inA.exams.getD 0 dExam).students ≤ (inA.rooms.getD r dRoom).capacity :=
  ⟨⟨by decide, by decide⟩, assigned_room_has_capacity inA vA 0 (by decide) (by decide)⟩

/-- C6: In every success result, every exam has `day ∈ [0, days - 1]`,
`slot ∈ [0, slots_per_day - 1]`, `slot + duration ≤ slots_per_day`, and `day`
and `slot` are the rounded-toward-zero quotient and remainder of the exam's
start instant by `slots_per_day` (which, `start` being nonnegative, are the
usual integer quotient and remainder). -/
theorem day_slot_within_bounds :
    ∀ (input : Input) (v : Valuation) (e : Nat),
      Feasible input v → e < input.exams.length →
      0 ≤ (v.exam.getD e dVals).day ∧
      (v.exam.getD e dVals).day ≤ input.days - 1 ∧
      0 ≤ (v.exam.getD e dVals).slot ∧
      (v.exam.getD e dVals).slot ≤ input.slots_per_day - 1 ∧
      (v.exam.getD e dVals).slot + (input.exams.getD e dExam).duration ≤ input.slots_per_day ∧
      0 ≤ (v.exam.getD e dVals).start ∧
      (v.exam.getD e dVals).day = (v.exam.getD e dVals).start.tdiv input.slots_per_day ∧
      (v.exam.getD e dVals).slot = (v.exam.getD e dVals).start.tmod input.slots_per_day := by
  intro input v e hF he
  obtain ⟨-, -, hex, -, -, -, -⟩ := hF
  obtain ⟨hs0, hs1, hd0, hd1, hl0, hl1, hdiv, hmod, hfit, -⟩ := hex e he
  exact ⟨hd0, hd1, hl0, hl1, hfit, hs0, hdiv, hmod⟩

/-- Witness for C6: the containment theorem applied to `inA` and `vA` at exam 1. -/
theorem day_slot_within_bounds_w :
    (Feasible inA vA ∧ (1 : Nat) < inA.exams.length) ∧
    (0 ≤ (vA.exam.getD 1 dVals).day ∧
     (vA.exam.getD 1 dVals).day ≤ inA.days - 1 ∧
     0 ≤ (vA.exam.getD 1 dVals).slot ∧
     (vA.exam.getD 1 dVals).slot ≤ inA.slots_per_day - 1 ∧
     (vA.exam.getD 1 dVals).slot + (inA.exams.getD 1 dExam).duration ≤ inA.slots_per_day ∧
     0 ≤ (vA.exam.getD 1 dVals).start ∧
     (vA.exam.getD 1 dVals).day = (vA.exam.getD 1 dVals).start.tdiv inA.slots_per_day ∧
     (vA.exam.getD 1 dVals).slot = (vA.exam.getD 1 dVals).start.tmod inA.slots_per_day) :=
  ⟨⟨by decide, by decide⟩, day_slot_within_bounds inA vA 1 (by decide) (by decide)⟩

/-- An exam whose duration exceeds `slots_per_day` admits no feasible
valuation: `0 ≤ slot` and `slot + duration ≤ H` are contradictory. -/
lemma not_feasible_of_overlong {input : Input} {v : Valuation}
    (h : ∃ ex ∈ input.exams, input.slots_per_day < ex.duration) : ¬ Feasible input v := by
  intro hF
  obtain ⟨ex, hmem, hlong⟩ := h
  obtain ⟨e, he, hee⟩ := List.mem_iff_getElem.mp hmem
  obtain ⟨-, -, hex, -, -, -, -⟩ := hF
  obtain ⟨-, -, -, -, hl0, -, -, -, hfit, -⟩ := hex e he
  rw [List.getD_eq_getElem input.exams dExam he, hee] at hfit
  omega

/-- An exam whose student count exceeds every room's capacity admits no
feasible valuation: its room domain `possible_rooms` is empty. -/
lemma not_feasible_of_no_room {input : Input} {v : Valuation}
    (h : ∃ ex ∈ input.exams, ∀ rm ∈ input.rooms, rm.capacity < ex.students) :
    ¬ Feasible input v := by
  intro hF
  obtain ⟨ex, hmem, hcap⟩ := h
  obtain ⟨e, he, hee⟩ := List.mem_iff_getElem.mp hmem
  obtain ⟨-, -, hex, -, -, -, -⟩ := hF
  obtain ⟨-, -, -, -, -, -, -, -, -, hroommem⟩ := hex e he
  obtain ⟨r, hr, -⟩ := List.mem_map.mp hroommem
  unfold possible_rooms at hr
  obtain ⟨hrange, hle⟩ := List.mem_filter.mp hr
  have hrlt : r < input.rooms.length := List.mem_range.mp hrange
  have hmemr : input.rooms.getD r dRoom ∈ input.rooms := by
    rw [List.getD_eq_getElem input.rooms dRoom hrlt]
    exact List.getElem_mem hrlt
  have h1 := hcap (input.rooms.getD r dRoom) hmemr
  have h2 := of_decide_eq_true hle
  rw [List.getD_eq_getElem input.exams dExam he, hee] at h2
  omega

/-- With an empty room list and at least one exam, no valuation is feasible. -/
lemma not_feasible_of_empty_rooms {input : Input} {v : Valuation}
    (hrooms : input.rooms = []) (hexams : input.exams ≠ []) : ¬ Feasible input v := by
  intro hF
  obtain ⟨-, -, hex, -, -, -, -⟩ := hF
  have hlen : 0 < input.exams.length := List.length_pos.mpr hexams
  obtain ⟨-, -, -, -, -, -, -, -, -, hroommem⟩ := hex 0 hlen
  rw [hrooms] at hroommem
  simp [possible_rooms] at hroommem

/-- With no exams the min/max channeling constraints of the objective have no
operands, so no valuation is feasible (and the engine never reports
OPTIMAL/FEASIBLE for this model). -/
lemma not_feasible_of_no_exams {input : Input} {v : Valuation}
    (hexams : input.exams = []) : ¬ Feasible input v := by
  intro hF
  obtain ⟨hlen, -, -, -, -, -, hobj⟩ := hF
  obtain ⟨-, -, -, -, -, -, hmin, -, -⟩ := hobj
  obtain ⟨hmem, -⟩ := hmin
  rw [hexams] at hlen
  rw [List.eq_nil_of_length_eq_zero hlen] at hmem
  simp at hmem

/-- C3 (amended): an input containing an exam whose duration exceeds
`slots_per_day` is not detected before the solve: the model is built anyway,
it is infeasible, and the only possible return value of `solve_scheduling` is
the generic failure dictionary — no per-exam infeasibility cause exists. -/
theorem overlong_duration_yields_generic_failure :
    ∀ (input : Input) (r : SolveResult),
      (∃ ex ∈ input.exams, input.slots_per_day < ex.duration) →
      IsSolveOutput input r → r = failureResult := by
  intro input r h hout
  rcases hout with hfail | ⟨v, hF, -⟩
  · exact hfail
  · exact absurd hF (not_feasible_of_overlong h)

/-- Witness for C3 (amended): applied to the concrete input `c3in`
(one exam of duration 5, `slots_per_day` = 3) and the failure value. -/
theorem overlong_duration_yields_generic_failure_w :
    ((∃ ex ∈ c3in.exams, c3in.slots_per_day < ex.duration) ∧
      IsSolveOutput c3in failureResult) ∧
    failureResult = failureResult :=
  ⟨⟨by decide, Or.inl rfl⟩,
    overlong_duration_yields_generic_failure c3in failureResult (by decide) (Or.inl rfl)⟩

/-- Counterexample to C3 as stated: on the concrete input `c3in`, whose only
exam has duration 5 > `slots_per_day` = 3, every possible return value of
`solve_scheduling` is the generic solver-failure dictionary — no per-exam
infeasibility cause is ever reported before (or after) delegating to the
solver. -/
theorem overlong_duration_no_per_exam_report :
    OnlyGenericFailure c3in ∧ c3in.slots_per_day < (c3in.exams.getD 0 dExam).duration := by
  constructor
  · intro r hout
    rcases hout with hfail | ⟨v, hF, -⟩
    · exact hfail
    · exact absurd hF (not_feasible_of_overlong (by decide))
  · decide

/-- C4: an input containing an exam whose student count exceeds every room's
capacity makes the model infeasible, so the only possible return value of
`solve_scheduling` is the structured failure dictionary — never a success
assigning that exam an invalid room. -/
theorem no_fitting_room_yields_failure :
    ∀ (input : Input) (r : SolveResult),
      (∃ ex ∈ input.exams, ∀ rm ∈ input.rooms, rm.capacity < ex.students) →
      IsSolveOutput input r → r = failureResult := by
  intro input r h hout
  rcases hout with hfail | ⟨v, hF, -⟩
  · exact hfail
  · exact absurd hF (not_feasible_of_no_room h)

/-- Witness for C4: applied to the concrete input `c4in` (one exam with 100
students, one room of capacity 35) and the failure value. -/
theorem no_fitting_room_yields_failure_w :
    ((∃ ex ∈ c4in.exams, ∀ rm ∈ c4in.rooms, rm.capacity < ex.students) ∧
      IsSolveOutput c4in failureResult) ∧
    failureResult = failureResult :=
  ⟨⟨by decide, Or.inl rfl⟩,
    no_fitting_room_yields_failure c4in failureResult (by decide) (Or.inl rfl)⟩

/-- C9 (amended): the only validation performed before model construction is
the HTTP handler's falsy-body check, answered with the 400 error
"Aucune donnée fournie"; a non-positive duration or an empty room list is
not reported as an input-validation error.  An empty room list (with at
least one exam) merely yields the generic solver failure. -/
theorem validation_only_for_missing_body :
    (∀ r : HttpResponse, ScheduleOutput none r → r = HttpResponse.badRequest noDataMessage) ∧
    (∀ (input : Input) (r : SolveResult), input.rooms = [] → input.exams ≠ [] →
      IsSolveOutput input r → r = failureResult) := by
  constructor
  · intro r h
    exact h
  · intro input r hrooms hexams hout
    rcases hout with hfail | ⟨v, hF, -⟩
    · exact hfail
    · exact absurd hF (not_feasible_of_empty_rooms hrooms hexams)

/-- Witness for C9 (amended): the missing-body branch at the concrete 400
response, and the empty-room-list branch at the concrete input `c9e`. -/
theorem validation_only_for_missing_body_w :
    (ScheduleOutput none (HttpResponse.badRequest noDataMessage) ∧
      c9e.rooms = [] ∧ c9e.exams ≠ [] ∧ IsSolveOutput c9e failureResult) ∧
    (HttpResponse.badRequest noDataMessage = HttpResponse.badRequest noDataMessage ∧
      failureResult = failureResult) :=
  ⟨⟨rfl, rfl, by decide, Or.inl rfl⟩,
    validation_only_for_missing_body.1 (HttpResponse.badRequest noDataMessage) rfl,
    validation_only_for_missing_body.2 c9e failureResult rfl (by decide) (Or.inl rfl)⟩

/-- Counterexample to C9 as stated: the concrete input `c9in` contains an
exam with the non-positive duration 0, yet no input-validation error is
produced — the model is built and is even satisfiable, so `solve_scheduling`
can return a success dictionary for this invalid request. -/
theorem nonpositive_duration_reaches_solver :
    IsSolveOutput c9in (mapResult c9in v9) ∧
    mapResult c9in v9 ≠ failureResult ∧
    (c9in.exams.getD 0 dExam).duration ≤ 0 :=
  ⟨Or.inr ⟨v9, by decide, rfl⟩, by decide, by decide⟩

/-- C10: for an input with an empty exams list, `solve_scheduling` still
returns a structured response: the min/max objective constraints over the
empty collection of exam variables admit no valuation, the solve does not
report OPTIMAL/FEASIBLE, and the returned value is the structured generic
failure dictionary (no exception escapes). -/
theorem empty_exams_structured_result :
    ∀ (input : Input) (r : SolveResult), input.exams = [] →
      IsSolveOutput input r → r = failureResult := by
  intro input r hexams hout
  rcases hout with hfail | ⟨v, hF, -⟩
  · exact hfail
  · exact absurd hF (not_feasible_of_no_exams hexams)

/-- Witness for C10: applied to the concrete input `c10in` (no exams) and
the failure value. -/
theorem empty_exams_structured_result_w :
    (c10in.exams = [] ∧ IsSolveOutput c10in failureResult) ∧
    failureResult = failureResult :=
  ⟨⟨rfl, Or.inl rfl⟩,
    empty_exams_structured_result c10in failureResult rfl (Or.inl rfl)⟩

/-- The entry of the results list at an in-range index e, spelled out. -/
lemma resultsOf_getD (input : Input) (v : Valuation) (e : Nat) (he : e < input.exams.length) :
    (resultsOf input v).getD e dEntry =
      { name := (input.exams.getD e dExam).name
        filiere := (input.exams.getD e dExam).filiere
        promotion := (input.exams.getD e dExam).promotion
        day := (v.exam.getD e dVals).day
        slot := (v.exam.getD e dVals).slot
        room := (input.rooms.getD (v.exam.getD e dVals).room.toNat dRoom).name } := by
  have hlen : e < (resultsOf input v).length := by simp [resultsOf, he]
  rw [List.getD_eq_getElem (resultsOf input v) dEntry hlen]
  simp [resultsOf]

/-- C8: every possible return value of `solve_scheduling` is either the
failure dictionary, which carries only the message (no results), or a success
dictionary whose results list has exactly one entry per input exam, in input
order, each carrying the exam's `name`, `filiere` and `promotion` unchanged. -/
theorem success_results_match_input :
    ∀ (input : Input) (r : SolveResult), IsSolveOutput input r →
      r = failureResult ∨
      ∃ v, Feasible input v ∧ r = mapResult input v ∧
        (resultsOf input v).length = input.exams.length ∧
        ∀ e, e < input.exams.length →
          ((resultsOf input v).getD e dEntry).name = (input.exams.getD e dExam).name ∧
          ((resultsOf input v).getD e dEntry).filiere = (input.exams.getD e dExam).filiere ∧
          ((resultsOf input v).getD e dEntry).promotion = (input.exams.getD e dExam).promotion := by
  intro input r hout
  rcases hout with hfail | ⟨v, hF, hr⟩
  · exact Or.inl hfail
  · refine Or.inr ⟨v, hF, hr, by simp [resultsOf], ?_⟩
    intro e he
    rw [resultsOf_getD input v e he]
    exact ⟨rfl, rfl, rfl⟩

/-- Witness for C8: applied to the concrete input `inA` and the concrete
success output mapped from the feasible valuation `vA`. -/
theorem success_results_match_input_w :
    IsSolveOutput inA (mapResult inA vA) ∧
    (mapResult inA vA = failureResult ∨
      ∃ v, Feasible inA v ∧ mapResult inA vA = mapResult inA v ∧
        (resultsOf inA v).length = inA.exams.length ∧
        ∀ e, e < inA.exams.length →
          ((resultsOf inA v).getD e dEntry).name = (inA.exams.getD e dExam).name ∧
          ((resultsOf inA v).getD e dEntry).filiere = (inA.exams.getD e dExam).filiere ∧
          ((resultsOf inA v).getD e dEntry).promotion = (inA.exams.getD e dExam).promotion) :=
  ⟨Or.inr ⟨vA, by decide, rfl⟩,
    success_results_match_input inA (mapResult inA vA) (Or.inr ⟨vA, by decide, rfl⟩)⟩

/-- The minimum channeling constraint determines its target uniquely. -/
lemma isMinOf_unique {m m' : Int} {l : List Int} (h : IsMinOf m l) (h' : IsMinOf m' l) :
    m = m' :=
  le_antisymm (h.2 m' h'.1) (h'.2 m h.1)

/-- The maximum channeling constraint determines its target uniquely. -/
lemma isMaxOf_unique {m m' : Int} {l : List Int} (h : IsMaxOf m l) (h' : IsMaxOf m' l) :
    m = m' :=
  le_antisymm (h'.2 m h.1) (h.2 m' h'.1)

/-- Recomputing `day * slots_per_day + slot` from the returned entries yields
exactly the solved start instants. -/
lemma recomputedStarts_eq {input : Input} {v : Valuation} (hF : Feasible input v) :
    recomputedStarts input (resultsOf input v) = v.exam.map ExamVals.start := by
  obtain ⟨hlen, -, hex, -, -, -, -⟩ := hF
  apply List.ext_getElem
  · simp [recomputedStarts, resultsOf, hlen]
  · intro i h1 h2
    have hi : i < input.exams.length := by
      simpa [recomputedStarts, resultsOf] using h1
    have hv : i < v.exam.length := by omega
    obtain ⟨hs0, -, -, -, -, -, hdiv, hmod, -, -⟩ := hex i hi
    simp only [recomputedStarts, resultsOf, List.getElem_map, List.getElem_range]
    have hgd : v.exam.getD i dVals = v.exam[i] := List.getD_eq_getElem v.exam dVals hv
    rw [List.getD_eq_getElem v.exam dVals hv] at hdiv hmod
    rw [hgd, hdiv, hmod]
    exact Int.tdiv_add_tmod' (v.exam[i]).start input.slots_per_day

/-- Recomputing `day * slots_per_day + slot + duration` from the returned
entries and the input durations yields exactly the solved `exam_end` values. -/
lemma recomputedEnds_eq {input : Input} {v : Valuation} (hF : Feasible input v) :
    recomputedEnds input (resultsOf input v) = v.exam_end := by
  obtain ⟨hlen, hlen2, hex, hend, -, -, -⟩ := hF
  apply List.ext_getElem
  · simp [recomputedEnds, resultsOf, hlen2]
  · intro i h1 h2
    have hi : i < input.exams.length := by omega
    have hv : i < v.exam.length := by omega
    obtain ⟨hs0, -, -, -, -, -, hdiv, hmod, -, -⟩ := hex i hi
    obtain ⟨-, -, hev⟩ := hend i hi
    simp only [recomputedEnds, resultsOf, List.getElem_map, List.getElem_zip, List.getElem_range]
    have hgd : v.exam.getD i dVals = v.exam[i] := List.getD_eq_getElem v.exam dVals hv
    rw [List.getD_eq_getElem v.exam_end 0 (by omega)] at hev
    rw [List.getD_eq_getElem input.exams dExam hi] at hev
    rw [hgd] at hdiv hmod hev
    rw [hev, hgd, hdiv, hmod]
    have := Int.tdiv_add_tmod' (v.exam[i]).start input.slots_per_day
    omega

/-- C7: in every success result, `total_period` equals the span
`max(end) - min(start)` recomputed from the returned `day`/`slot` values and
the input durations, where each start is `day * slots_per_day + slot`; this
is the `period` variable (`period == end_max - start_min`) that the model
passes to `Minimize`. -/
theorem total_period_is_recomputed_span :
    ∀ (input : Input) (v : Valuation) (M m : Int),
      Feasible input v →
      IsMaxOf M (recomputedEnds input (resultsOf input v)) →
      IsMinOf m (recomputedStarts input (resultsOf input v)) →
      mapResult input v = SolveResult.success (resultsOf input v) (M - m) := by
  intro input v M m hF hM hm
  have hE := recomputedEnds_eq hF
  have hS := recomputedStarts_eq hF
  rw [hE] at hM
  rw [hS] at hm
  obtain ⟨-, -, -, -, -, -, hobj⟩ := hF
  obtain ⟨-, -, -, -, -, -, hmin, hmax, hper⟩ := hobj
  have h1 : M = v.end_max := isMaxOf_unique hM hmax
  have h2 : m = v.start_min := isMinOf_unique hm hmin
  unfold mapResult
  rw [hper, h1, h2]

/-- Witness for C7: applied to `inA` and `vA`, whose recomputed ends are
[2, 5] (max 5) and recomputed starts are [0, 3] (min 0); `total_period` is
5 - 0 = 5. -/
theorem total_period_is_recomputed_span_w :
    (Feasible inA vA ∧
      IsMaxOf 5 (recomputedEnds inA (resultsOf inA vA)) ∧
      IsMinOf 0 (recomputedStarts inA (resultsOf inA vA))) ∧
    mapResult inA vA = SolveResult.success (resultsOf inA vA) (5 - 0) :=
  ⟨⟨by decide, by decide, by decide⟩,
    total_period_is_recomputed_span inA vA 5 0 (by decide) (by decide) (by decide)⟩

end ExamOptim
